import Mathlib

/-!
Verification of the survey_eval repository: a shallow embedding of the
evaluation harness (`eval_harness.py`) and of the CSV-parsing / path-suffix
logic of the two scorer variants (`questionnaire_scorer.py` and the legacy
`questionnaire_scrorer.py`), together with theorems settling the spec claims.

Machine integers of the source are modelled as `Int`, Python floats arising
from exact integer arithmetic (sums of integer scores divided by counts) as
`Rat`, Python dicts as association lists keyed by `String`, and raised
exceptions as `Except String`.
-/

namespace SurveyEval

/-- The four core scoring attributes iterated by `calculate_eval_metrics`. -/
inductive Attr : Type
  | clarity
  | specificity
  | bias
  | actionability
deriving DecidableEq

/-- A dict keyed by the four attributes (Python `{"clarity": ..., ...}`). -/
structure AttrMap (α : Type) : Type where
  clarity : α
  specificity : α
  bias : α
  actionability : α
deriving DecidableEq

/-- Look an attribute up in an `AttrMap`. -/
def AttrMap.get {α : Type} (m : AttrMap α) : Attr → α
  | Attr.clarity => m.clarity
  | Attr.specificity => m.specificity
  | Attr.bias => m.bias
  | Attr.actionability => m.actionability

/-- One extracted question, as built by `_parse_csv_output` and as stored in
the eval dataset (`section`, `question_number`, `question_text` and the four
core integer scores). Python's `section` key is `sectionName` here because
`section` is reserved in Lean. -/
structure Question : Type where
  sectionName : String
  question_number : Int
  question_text : String
  clarity : Int
  specificity : Int
  bias : Int
  actionability : Int
deriving DecidableEq

/-- The attribute score of a question (`q[attr]` in the Python source). -/
def qAttr (a : Attr) (q : Question) : Int :=
  match a with
  | Attr.clarity => q.clarity
  | Attr.specificity => q.specificity
  | Attr.bias => q.bias
  | Attr.actionability => q.actionability

/-- The structured scoring result: a `questions` list and a
`section_averages` dict mapping section names to per-attribute averages. -/
structure ScoringResult : Type where
  questions : List Question
  section_averages : List (String × AttrMap Rat)
deriving DecidableEq

/-- Python `str.strip()` with no argument: remove leading and trailing
whitespace. -/
def pyStrip (l : List Char) : List Char :=
  ((l.dropWhile Char.isWhitespace).reverse.dropWhile Char.isWhitespace).reverse

/-- Python `str.lower()`: lowercase every character. -/
def pyLower (s : String) : String :=
  String.mk (s.toList.map Char.toLower)

/-- Python `s.strip().lower()`: the normalization applied to `question_text`
before any matching in `calculate_eval_metrics`. -/
def normText (s : String) : String :=
  pyLower (String.mk (pyStrip s.toList))

/-- The per-case metrics dict returned by `calculate_eval_metrics`. -/
structure EvalMetrics : Type where
  extraction_accuracy : Rat
  score_mae : AttrMap Rat
  score_within_1 : AttrMap Rat
  section_detection : Rat
deriving DecidableEq

/-- Lines 33-38 of `eval_harness.py`: the sets of normalized question texts
for predicted and expected, and `|intersection| / |expected|` when the
expected set is nonempty, defaulting to the initial `0.0` otherwise. -/
def extraction_accuracy (predicted expected : ScoringResult) : Rat :=
  let pred_questions := (predicted.questions.map (fun q => normText q.question_text)).toFinset
  let exp_questions := (expected.questions.map (fun q => normText q.question_text)).toFinset
  if 0 < exp_questions.card then
    ((pred_questions ∩ exp_questions).card : Rat) / (exp_questions.card : Rat)
  else 0

/-- Python `next((q for q in predicted["questions"] if q["question_text"].strip().lower() == exp_text), None)`:
the first predicted question, in predicted order, whose normalized text is `exp_text`. -/
def findMatch (predicted : List Question) (exp_text : String) : Option Question :=
  predicted.find? (fun q => decide (normText q.question_text = exp_text))

/-- The `errors` list accumulated in the attribute loop of
`calculate_eval_metrics` (lines 43-61): iterate expected questions in order,
and for each one that has a match append `abs(pred_q[attr] - exp_q[attr])`;
unmatched expected questions are skipped. -/
def attrErrors (predicted expected : List Question) (a : Attr) : List Int :=
  expected.filterMap (fun exp_q =>
    (findMatch predicted (normText exp_q.question_text)).map
      (fun pred_q => |qAttr a pred_q - qAttr a exp_q|))

/-- Line 62: `sum(errors) / len(errors) if errors else 0.0`. -/
def score_mae_val (predicted expected : List Question) (a : Attr) : Rat :=
  let errors := attrErrors predicted expected a
  if errors.isEmpty then 0 else (errors.sum : Rat) / (errors.length : Rat)

/-- The `within_1` boolean list (line 60): `error <= 1` for each matched pair. -/
def within1Flags (predicted expected : List Question) (a : Attr) : List Bool :=
  (attrErrors predicted expected a).map (fun e => decide (e ≤ 1))

/-- Line 63: `sum(within_1) / len(within_1) if within_1 else 0.0`
(`sum` of booleans counts the `True` entries). -/
def score_within_1_val (predicted expected : List Question) (a : Attr) : Rat :=
  let w := within1Flags predicted expected a
  if w.isEmpty then 0 else ((w.count true : Nat) : Rat) / (w.length : Rat)

/-- Lines 65-70: section detection. `expected.get("section_averages")` is
truthy only when the dict is nonempty; then
`|pred sections ∩ exp sections| / |exp sections|`. -/
def section_detection_val (predicted expected : ScoringResult) : Rat :=
  if expected.section_averages.isEmpty then 0
  else
    let pred_sections := (predicted.section_averages.map Prod.fst).toFinset
    let exp_sections := (expected.section_averages.map Prod.fst).toFinset
    if 0 < exp_sections.card then
      ((pred_sections ∩ exp_sections).card : Rat) / (exp_sections.card : Rat)
    else 0

/-- `calculate_eval_metrics` (lines 24-72): extraction accuracy, per-attribute
MAE and within-1 rate, and section detection. -/
def calculate_eval_metrics (predicted expected : ScoringResult) : EvalMetrics :=
  { extraction_accuracy := extraction_accuracy predicted expected
    score_mae :=
      { clarity := score_mae_val predicted.questions expected.questions Attr.clarity
        specificity := score_mae_val predicted.questions expected.questions Attr.specificity
        bias := score_mae_val predicted.questions expected.questions Attr.bias
        actionability := score_mae_val predicted.questions expected.questions Attr.actionability }
    score_within_1 :=
      { clarity := score_within_1_val predicted.questions expected.questions Attr.clarity
        specificity := score_within_1_val predicted.questions expected.questions Attr.specificity
        bias := score_within_1_val predicted.questions expected.questions Attr.bias
        actionability := score_within_1_val predicted.questions expected.questions Attr.actionability }
    section_detection := section_detection_val predicted expected }

/-! ### Threshold gate (`EvalHarness.check_pass_fail`, lines 131-178) -/

/-- The fixed threshold table (`THRESHOLDS`, lines 11-21 of `eval_harness.py`). -/
def THRESHOLDS : List (String × Rat) :=
  [("extraction_accuracy", 0.95),
   ("clarity_mae", 0.5),
   ("specificity_mae", 0.5),
   ("bias_mae", 0.7),
   ("actionability_mae", 0.8),
   ("clarity_within_1", 0.85),
   ("specificity_within_1", 0.85),
   ("bias_within_1", 0.80),
   ("actionability_within_1", 0.80)]

/-- Python `s.endswith(post)`. -/
def endswith (s post : String) : Bool :=
  post.toList.isSuffixOf s.toList

/-- The body of the threshold loop (lines 151-169): a metric absent from the
means table is skipped (`continue`, i.e. the check holds vacuously); a metric
whose name ends in `_mae` passes when `actual <= threshold`, any other metric
passes when `actual >= threshold`. -/
def metricCheck (means : String → Option Rat) (metric : String) (threshold : Rat) : Bool :=
  match means metric with
  | none => true
  | some actual =>
      if endswith metric "_mae" then decide (actual ≤ threshold)
      else decide (threshold ≤ actual)

/-- The whole threshold loop: `all_passed` starts `True` and is cleared by any
failing check, so the verdict is the conjunction of the per-metric checks over
the `THRESHOLDS` table. -/
def thresholdChecks (means : String → Option Rat) : Bool :=
  THRESHOLDS.all (fun mt => metricCheck means mt.1 mt.2)

/-- One row of the results table built by `run_evals`: `eval_id`, an optional
`error` field, and the populated numeric columns. A Python success row carries
the ten flattened metric fields in `metrics`; an error row (lines 124-127)
carries only `eval_id` and `error`, so its `metrics` list is empty. -/
structure ResultRow : Type where
  eval_id : String
  error : Option String
  metrics : List (String × Rat)
deriving DecidableEq

/-- Python dict lookup on an association list (first matching key). -/
def alookup {α : Type} (key : String) : List (String × α) → Option α
  | [] => none
  | p :: rest => if p.1 = key then some p.2 else alookup key rest

/-- The aggregated means table (lines 138-139): `results_df[numeric_cols].mean()`.
A numeric column exists exactly when some row populates it; pandas `mean`
skips missing entries (`NaN`) rather than treating them as zeros, so the mean
is taken over the rows that have the column populated. `eval_id` and `error`
are non-numeric columns and are excluded by `select_dtypes`; they live in the
typed fields of `ResultRow`, outside `metrics`. -/
def columnMean (rows : List ResultRow) (c : String) : Option Rat :=
  let vals := rows.filterMap (fun r => alookup c r.metrics)
  if vals.isEmpty then none else some (vals.sum / (vals.length : Rat))

/-- `EvalHarness.check_pass_fail`: aggregate the rows into the means table and
run the threshold loop. -/
def check_pass_fail (rows : List ResultRow) : Bool :=
  thresholdChecks (fun c => columnMean rows c)

/-! ### Eval runner (`EvalHarness.run_evals`, lines 80-129) -/

/-- A raw dataset entry, before any field access: each of the required fields
`id`, `document`, `expected_output` may be missing (Python would raise
`KeyError` on access). -/
structure RawCase : Type where
  id : Option String
  document : Option String
  expected_output : Option ScoringResult

/-- Flattening of the metrics dict into the result row (lines 99-111):
`extraction_acc` and `section_detection` first, then the four `_mae` columns,
then the four `_within_1` columns, in the attribute order of the source. -/
def flattenMetrics (m : EvalMetrics) : List (String × Rat) :=
  [("extraction_acc", m.extraction_accuracy),
   ("section_detection", m.section_detection),
   ("clarity_mae", m.score_mae.clarity),
   ("specificity_mae", m.score_mae.specificity),
   ("bias_mae", m.score_mae.bias),
   ("actionability_mae", m.score_mae.actionability),
   ("clarity_within_1", m.score_within_1.clarity),
   ("specificity_within_1", m.score_within_1.specificity),
   ("bias_within_1", m.score_within_1.bias),
   ("actionability_within_1", m.score_within_1.actionability)]

/-- The body of the `try` block (lines 90-113): look up `document`, call the
scoring collaborator (modelled as a fallible function, per anything the
external call may raise), look up `expected_output`, compute the metrics.
The evaluation order matches the source: the `document` access and the
collaborator call happen before the `expected_output` access. -/
def tryBody (score : String → Except String ScoringResult) (c : RawCase) :
    Except String EvalMetrics :=
  match c.document with
  | none => Except.error "KeyError: document"
  | some doc =>
      match score doc with
      | Except.error e => Except.error e
      | Except.ok predicted =>
          match c.expected_output with
          | none => Except.error "KeyError: expected_output"
          | some expected => Except.ok (calculate_eval_metrics predicted expected)

/-- One loop iteration after `eval_id` has been read: on success append the
flattened metrics row, on any exception append the error row
`{eval_id, error}` (lines 122-127). -/
def processCase (score : String → Except String ScoringResult) (eval_id : String)
    (c : RawCase) : ResultRow :=
  match tryBody score c with
  | Except.ok m => { eval_id := eval_id, error := none, metrics := flattenMetrics m }
  | Except.error e => { eval_id := eval_id, error := some e, metrics := [] }

/-- `EvalHarness.run_evals`: iterate the dataset in order. The access
`eval_id = eval_case["id"]` (line 85) happens OUTSIDE the `try` block, so a
missing `id` raises out of the whole loop and aborts the run; every other
failure is confined to its case by `processCase`. -/
def run_evals (score : String → Except String ScoringResult) :
    List RawCase → Except String (List ResultRow)
  | [] => Except.ok []
  | c :: rest =>
      match c.id with
      | none => Except.error "KeyError: id"
      | some eval_id =>
          match run_evals score rest with
          | Except.error e => Except.error e
          | Except.ok rows => Except.ok (processCase score eval_id c :: rows)

/-! ### CSV output parsing (`QuestionnaireScorer._parse_csv_output`)

The method is byte-identical in its core-field handling across the two scorer
variants (`questionnaire_scorer.py` lines 254-298 and the legacy
`questionnaire_scrorer.py` lines 130-174); one embedding covers both. The
CSV text has already been split into records by `csv.DictReader`; a record is
modelled as its typed fields (`int(...)` already applied, as in the source). -/

/-- One CSV record as consumed by `_parse_csv_output`. -/
structure CsvRow : Type where
  sectionName : String
  question_number : Int
  question_text : String
  clarity : Int
  specificity : Int
  bias : Int
  actionability : Int
deriving DecidableEq

/-- The attribute field of a CSV record. -/
def rowAttr (a : Attr) (r : CsvRow) : Int :=
  match a with
  | Attr.clarity => r.clarity
  | Attr.specificity => r.specificity
  | Attr.bias => r.bias
  | Attr.actionability => r.actionability

/-- The `question` dict appended to `questions` for each record. -/
def rowToQuestion (r : CsvRow) : Question :=
  { sectionName := r.sectionName
    question_number := r.question_number
    question_text := r.question_text
    clarity := r.clarity
    specificity := r.specificity
    bias := r.bias
    actionability := r.actionability }

/-- The per-section score lists (`section_scores[section]`). -/
abbrev SectionScores := AttrMap (List Int)

/-- The empty score-list dict created when a section is first seen. -/
def emptyScores : SectionScores :=
  { clarity := [], specificity := [], bias := [], actionability := [] }

/-- Appending one record's four scores to a section's lists. -/
def appendScores (sc : SectionScores) (r : CsvRow) : SectionScores :=
  { clarity := sc.clarity ++ [r.clarity]
    specificity := sc.specificity ++ [r.specificity]
    bias := sc.bias ++ [r.bias]
    actionability := sc.actionability ++ [r.actionability] }

/-- Update the value stored at `key` in an association list, leaving the key
order unchanged (Python dict item assignment for a present key). -/
def updateAssoc {α : Type} (m : List (String × α)) (key : String) (f : α → α) :
    List (String × α) :=
  m.map (fun p => if p.1 = key then (p.1, f p.2) else p)

/-- One iteration of the reader loop, restricted to `section_scores`:
`if section not in section_scores: section_scores[section] = {...empty...}`
then append the four scores. A dict gains its key at first insertion, hence
the append at the tail for a new section (Python dicts preserve insertion
order). -/
def addRow (m : List (String × SectionScores)) (r : CsvRow) :
    List (String × SectionScores) :=
  match alookup r.sectionName m with
  | none => m ++ [(r.sectionName, appendScores emptyScores r)]
  | some _ => updateAssoc m r.sectionName (fun sc => appendScores sc r)

/-- The `section_scores` dict after the whole reader loop. -/
def sectionScoresOf (rows : List CsvRow) : List (String × SectionScores) :=
  rows.foldl addRow []

/-- `sum(vals) / len(vals)` for one attribute's score list. -/
def meanScores (vals : List Int) : Rat :=
  (vals.sum : Rat) / (vals.length : Rat)

/-- The dict comprehension computing one section's averages. -/
def averagesOf (sc : SectionScores) : AttrMap Rat :=
  { clarity := meanScores sc.clarity
    specificity := meanScores sc.specificity
    bias := meanScores sc.bias
    actionability := meanScores sc.actionability }

/-- `_parse_csv_output`: accumulate `questions` and `section_scores` over the
records, then derive `section_averages`. -/
def parse_csv_output (rows : List CsvRow) : ScoringResult :=
  { questions := rows.map rowToQuestion
    section_averages := (sectionScoresOf rows).map (fun p => (p.1, averagesOf p.2)) }

/-! ### Document-path dispatch of the two `score_document` variants -/

/-- Python `pathlib.PurePath(p).name`: the last path component. -/
def pathName (p : String) : List Char :=
  (p.toList.reverse.takeWhile (fun c => !(c == '/'))).reverse

/-- Python `pathlib.PurePath(p).suffix`: with `i = name.rfind(".")`, return
`name[i:]` when `0 < i < len(name) - 1`, else the empty string. -/
def pathSuffix (p : String) : String :=
  let name := pathName p
  match name.reverse.findIdx? (fun c => c == '.') with
  | none => ""
  | some j =>
      let i := name.length - 1 - j
      if 0 < i ∧ i < name.length - 1 then String.mk (name.drop i) else ""

/-- How `score_document` in `questionnaire_scorer.py` hands the document to
the external call: DOCX is text-extracted, PDF is sent as a base64 document. -/
inductive DocHandling : Type
  | docxText
  | pdfDocument
deriving DecidableEq

/-- The suffix dispatch of `QuestionnaireScorer.score_document` in
`questionnaire_scorer.py` (lines 131-157): `suffix = Path(doc_path).suffix.lower()`;
`.docx` and `.pdf` select their content blocks, anything else raises
`ValueError` naming the suffix. The dispatch completes before the external
scoring call (`self.client.messages.create`) is reached, so the error branch
never invokes it. -/
def score_document_format (doc_path : String) : Except String DocHandling :=
  let suffix := pyLower (pathSuffix doc_path)
  if suffix = ".docx" then Except.ok DocHandling.docxText
  else if suffix = ".pdf" then Except.ok DocHandling.pdfDocument
  else Except.error ("Unsupported file format: " ++ suffix ++ ". Use .docx or .pdf")

/-- The `media_types` table of the legacy `questionnaire_scrorer.py`
(lines 92-96). -/
def media_types : List (String × String) :=
  [(".docx", "application/vnd.openxmlformats-officedocument.wordprocessingml.document"),
   (".pdf", "application/pdf"),
   (".doc", "application/msword")]

/-- The legacy variant's media-type choice (line 97):
`media_types.get(suffix, "application/pdf")` — no exception is ever raised;
an unknown suffix falls back to the PDF media type, and `.doc` maps to the
MS Word media type. -/
def legacy_media_type (doc_path : String) : String :=
  (alookup (pyLower (pathSuffix doc_path)) media_types).getD "application/pdf"

/-! ## Spec-side definitions

These definitions follow the words of the specification (not the source) and
are compared with the source embeddings above. -/

/-- Written from the spec: a threshold check against an entry of the means
table. When `lower_is_better` it passes exactly when `mean ≤ threshold`, when
`higher_is_better` exactly when `mean ≥ threshold`; a metric absent from the
means never blocks the verdict. -/
def specGateCheck (lower_is_better : Bool) (threshold : Rat) : Option Rat → Bool
  | none => true
  | some mean =>
      if lower_is_better then decide (mean ≤ threshold) else decide (threshold ≤ mean)

/-- Written from the spec: the matched pairing for scoring metrics — iterate
expected questions in their original order, pair each with the first
predicted question (in predicted order) whose normalized text matches, and
drop expected questions with no match. Pairs are `(expected, predicted)`. -/
def specMatchedPairs (predicted expected : List Question) : List (Question × Question) :=
  expected.filterMap (fun exp_q =>
    (predicted.find? (fun pred_q =>
        decide (normText pred_q.question_text = normText exp_q.question_text))).map
      (fun pred_q => (exp_q, pred_q)))

/-- Written from the spec: `|predicted_value - expected_value|` for one
matched pair, as a rational. -/
def specPairError (a : Attr) (pr : Question × Question) : Rat :=
  |(qAttr a pr.2 : Rat) - (qAttr a pr.1 : Rat)|

/-- Written from the spec: `score_mae[attr]` is the mean of the absolute
errors over the matched pairs, or exactly `0` when no pairs matched. -/
def specMae (predicted expected : List Question) (a : Attr) : Rat :=
  let pairs := specMatchedPairs predicted expected
  if pairs = [] then 0
  else ((pairs.map (specPairError a)).sum) / (pairs.length : Rat)

/-- Written from the spec: `score_within_1[attr]` is the fraction of matched
pairs whose absolute error is at most `1`, or exactly `0` when no pairs
matched. -/
def specWithin1 (predicted expected : List Question) (a : Attr) : Rat :=
  let pairs := specMatchedPairs predicted expected
  if pairs = [] then 0
  else ((pairs.filter (fun pr => decide (specPairError a pr ≤ 1))).length : Rat) /
    (pairs.length : Rat)

/-- The normalized-text key set of a result's questions (lines 34-35 of
`eval_harness.py`). -/
def questionKeys (r : ScoringResult) : Finset String :=
  (r.questions.map (fun q => normText q.question_text)).toFinset

/-- The section-name key set of a result's `section_averages` (lines 67-68). -/
def sectionKeys (r : ScoringResult) : Finset String :=
  (r.section_averages.map Prod.fst).toFinset

/-! ## Concrete fixtures used by the witnesses -/

/-- A predicted result: one question whose text normalizes to `age?`. -/
def predW : ScoringResult :=
  { questions := [{ sectionName := "G", question_number := 1, question_text := "age? ",
                    clarity := 4, specificity := 3, bias := 3, actionability := 3 }]
    section_averages := [] }

/-- An expected result: one question whose text also normalizes to `age?`. -/
def expW : ScoringResult :=
  { questions := [{ sectionName := "G", question_number := 1, question_text := "Age?",
                    clarity := 5, specificity := 3, bias := 3, actionability := 3 }]
    section_averages := [] }

/-- A zero averages entry, for section-only fixtures. -/
def avgZero : AttrMap Rat := { clarity := 0, specificity := 0, bias := 0, actionability := 0 }

/-- A predicted result declaring sections `A` and `C`. -/
def predS : ScoringResult := { questions := [], section_averages := [("A", avgZero), ("C", avgZero)] }

/-- An expected result declaring sections `A` and `B`. -/
def expS : ScoringResult := { questions := [], section_averages := [("A", avgZero), ("B", avgZero)] }

/-! ## Theorems -/

/-- A `_mae` metric is checked as lower-is-better. -/
theorem metricCheck_mae (means : String → Option Rat) (m : String) (t : Rat)
    (h : endswith m "_mae" = true) :
    metricCheck means m t = specGateCheck true t (means m) := by
  cases hm : means m <;> simp [metricCheck, specGateCheck, h, hm]

/-- A metric whose name does not end in `_mae` is checked as higher-is-better. -/
theorem metricCheck_other (means : String → Option Rat) (m : String) (t : Rat)
    (h : endswith m "_mae" = false) :
    metricCheck means m t = specGateCheck false t (means m) := by
  cases hm : means m <;> simp [metricCheck, specGateCheck, h, hm]

/-- C1: for every aggregated means table, the threshold loop evaluates exactly
the nine fixed thresholds — `extraction_accuracy ≥ 0.95`; `clarity_mae ≤ 0.5`,
`specificity_mae ≤ 0.5`, `bias_mae ≤ 0.7`, `actionability_mae ≤ 0.8`;
`clarity_within_1 ≥ 0.85`, `specificity_within_1 ≥ 0.85`,
`bias_within_1 ≥ 0.80`, `actionability_within_1 ≥ 0.80` — with boundary
inclusive comparisons in both directions, and the overall verdict is the
conjunction of the evaluated checks. -/
theorem threshold_gate_nine_checks (means : String → Option Rat) :
    thresholdChecks means =
      (specGateCheck false 0.95 (means "extraction_accuracy")
       && specGateCheck true 0.5 (means "clarity_mae")
       && specGateCheck true 0.5 (means "specificity_mae")
       && specGateCheck true 0.7 (means "bias_mae")
       && specGateCheck true 0.8 (means "actionability_mae")
       && specGateCheck false 0.85 (means "clarity_within_1")
       && specGateCheck false 0.85 (means "specificity_within_1")
       && specGateCheck false 0.80 (means "bias_within_1")
       && specGateCheck false 0.80 (means "actionability_within_1")) := by
  simp only [thresholdChecks, THRESHOLDS, List.all_cons, List.all_nil, Bool.and_true]
  rw [metricCheck_other means "extraction_accuracy" 0.95 (by decide),
    metricCheck_mae means "clarity_mae" 0.5 (by decide),
    metricCheck_mae means "specificity_mae" 0.5 (by decide),
    metricCheck_mae means "bias_mae" 0.7 (by decide),
    metricCheck_mae means "actionability_mae" 0.8 (by decide),
    metricCheck_other means "clarity_within_1" 0.85 (by decide),
    metricCheck_other means "specificity_within_1" 0.85 (by decide),
    metricCheck_other means "bias_within_1" 0.80 (by decide),
    metricCheck_other means "actionability_within_1" 0.80 (by decide)]
  simp [Bool.and_assoc]

/-- The error list of the attribute loop is the per-pair absolute error over
the spec's matched pairs. -/
theorem attrErrors_eq_pairs (predicted expected : List Question) (a : Attr) :
    attrErrors predicted expected a =
      (specMatchedPairs predicted expected).map
        (fun pr => |qAttr a pr.2 - qAttr a pr.1|) := by
  unfold attrErrors specMatchedPairs findMatch
  rw [List.map_filterMap]
  apply List.filterMap_congr
  intro exp_q _
  cases predicted.find?
      (fun pred_q => decide (normText pred_q.question_text = normText exp_q.question_text)) <;>
    simp

/-- Casting an integer list sum into the rationals. -/
theorem cast_sum_int (l : List Int) :
    ((l.sum : Int) : Rat) = (l.map (fun x : Int => (x : Rat))).sum := by
  induction l with
  | nil => simp
  | cons x xs ih => simp [ih]

/-- The integer absolute error of a pair, cast to the rationals, is the
spec-side pair error. -/
theorem cast_pairError (a : Attr) (pr : Question × Question) :
    ((|qAttr a pr.2 - qAttr a pr.1| : Int) : Rat) = specPairError a pr := by
  unfold specPairError
  push_cast
  ring_nf

/-- C2: `score_mae[attr]` equals the spec's description — iterate expected
questions in order, pair each with the first matching predicted question by
normalized text, silently exclude unmatched expected questions, and report
the mean absolute error over the matched pairs, or exactly `0` when no pairs
matched. -/
theorem score_mae_matches_spec (predicted expected : List Question) (a : Attr) :
    score_mae_val predicted expected a = specMae predicted expected a := by
  unfold score_mae_val specMae
  dsimp only
  rw [attrErrors_eq_pairs]
  cases hp : specMatchedPairs predicted expected with
  | nil => simp
  | cons p ps =>
      rw [cast_sum_int, List.map_map]
      have hmapeq :
          List.map ((fun x : Int => (x : Rat)) ∘ fun pr => |qAttr a pr.2 - qAttr a pr.1|)
              (p :: ps) =
            List.map (specPairError a) (p :: ps) := by
        apply List.map_congr_left
        intro pr _
        exact cast_pairError a pr
      simp [hmapeq]

/-- Counting `true` among mapped booleans is the length of the filtered list. -/
theorem count_true_map {α : Type} (l : List α) (f : α → Bool) :
    (l.map f).count true = (l.filter f).length := by
  induction l with
  | nil => rfl
  | cons x xs ih => cases hf : f x <;> simp [List.count_cons, List.filter_cons, hf, ih]

/-- The integer error-at-most-one test agrees with the spec-side rational one. -/
theorem pairError_le_one (a : Attr) (pr : Question × Question) :
    decide (|qAttr a pr.2 - qAttr a pr.1| ≤ 1) = decide (specPairError a pr ≤ 1) := by
  rw [decide_eq_decide, ← cast_pairError a pr]
  exact_mod_cast Iff.rfl

/-- C5: `score_within_1[attr]` equals the fraction of matched pairs (the same
pairing as the MAE) whose absolute error is at most `1`, is exactly `0` when
no pairs matched, and always lies in `[0, 1]`. -/
theorem score_within_1_matches_spec (predicted expected : List Question) (a : Attr) :
    score_within_1_val predicted expected a = specWithin1 predicted expected a
    ∧ 0 ≤ score_within_1_val predicted expected a
    ∧ score_within_1_val predicted expected a ≤ 1 := by
  have hmain : score_within_1_val predicted expected a = specWithin1 predicted expected a := by
    unfold score_within_1_val specWithin1 within1Flags
    dsimp only
    rw [attrErrors_eq_pairs, List.map_map]
    cases hp : specMatchedPairs predicted expected with
    | nil => simp
    | cons p ps =>
        rw [count_true_map]
        have hfil :
            List.filter ((fun e : Int => decide (e ≤ 1)) ∘ fun pr => |qAttr a pr.2 - qAttr a pr.1|)
                (p :: ps) =
              List.filter (fun pr => decide (specPairError a pr ≤ 1)) (p :: ps) := by
          apply List.filter_congr
          intro pr _
          exact pairError_le_one a pr
        simp [hfil]
  refine ⟨hmain, ?_, ?_⟩
  · unfold score_within_1_val
    dsimp only
    cases hw : within1Flags predicted expected a with
    | nil => simp
    | cons b bs =>
        simp only [List.isEmpty_cons, Bool.false_eq_true, if_false]
        positivity
  · unfold score_within_1_val
    dsimp only
    cases hw : within1Flags predicted expected a with
    | nil => simp
    | cons b bs =>
        simp only [List.isEmpty_cons, Bool.false_eq_true, if_false]
        rw [div_le_one (by exact_mod_cast List.length_pos.mpr (List.cons_ne_nil b bs))]
        exact_mod_cast List.count_le_length true (b :: bs)


/-- C3: extraction accuracy is the size of the intersection of the two
normalized key sets divided by the size of the expected key set, is exactly
`0` when the expected key set is empty, and always lies in `[0, 1]`. -/
theorem extraction_accuracy_matches_spec (predicted expected : ScoringResult) :
    (questionKeys expected = ∅ → extraction_accuracy predicted expected = 0)
    ∧ (questionKeys expected ≠ ∅ →
        extraction_accuracy predicted expected =
          ((questionKeys predicted ∩ questionKeys expected).card : Rat) /
            ((questionKeys expected).card : Rat))
    ∧ 0 ≤ extraction_accuracy predicted expected
    ∧ extraction_accuracy predicted expected ≤ 1 := by
  have he : extraction_accuracy predicted expected =
      if 0 < (questionKeys expected).card then
        ((questionKeys predicted ∩ questionKeys expected).card : Rat) /
          ((questionKeys expected).card : Rat)
      else 0 := rfl
  refine ⟨?_, ?_, ?_, ?_⟩
  · intro h
    rw [he, if_neg (by simp [h])]
  · intro h
    rw [he, if_pos (Finset.card_pos.mpr (Finset.nonempty_iff_ne_empty.mpr h))]
  · rw [he]
    split
    · positivity
    · norm_num
  · rw [he]
    split
    · rename_i hpos
      rw [div_le_one (by exact_mod_cast hpos)]
      exact_mod_cast Finset.card_le_card Finset.inter_subset_right
    · norm_num

/-- C3 witness: at the concrete fixture the expected key set is nonempty and
the theorem yields the quotient form, which is nonnegative. -/
theorem extraction_accuracy_witness :
    extraction_accuracy predW expW =
      ((questionKeys predW ∩ questionKeys expW).card : Rat) / ((questionKeys expW).card : Rat)
    ∧ 0 ≤ extraction_accuracy predW expW :=
  ⟨(extraction_accuracy_matches_spec predW expW).2.1 (by decide),
   (extraction_accuracy_matches_spec predW expW).2.2.1⟩

/-- C6: section detection is the size of the intersection of the predicted
and expected section-name sets divided by the size of the expected set, and
is exactly `0` when the expected result declares no sections. -/
theorem section_detection_matches_spec (predicted expected : ScoringResult) :
    (expected.section_averages = [] → section_detection_val predicted expected = 0)
    ∧ (expected.section_averages ≠ [] →
        section_detection_val predicted expected =
          ((sectionKeys predicted ∩ sectionKeys expected).card : Rat) /
            ((sectionKeys expected).card : Rat)) := by
  constructor
  · intro h
    simp [section_detection_val, h]
  · intro h
    have hise : expected.section_averages.isEmpty = false := by
      cases hsa : expected.section_averages with
      | nil => exact absurd hsa h
      | cons p l => simp
    have hpos : 0 < (sectionKeys expected).card := by
      apply Finset.card_pos.mpr
      cases hsa : expected.section_averages with
      | nil => exact absurd hsa h
      | cons p l => exact ⟨p.1, by simp [sectionKeys, hsa]⟩
    unfold section_detection_val
    simp only [hise, Bool.false_eq_true, if_false]
    unfold sectionKeys at hpos ⊢
    rw [if_pos hpos]

/-- C6 witness: at the concrete section fixtures the expected result declares
sections, and the theorem yields the quotient form. -/
theorem section_detection_witness :
    section_detection_val predS expS =
      ((sectionKeys predS ∩ sectionKeys expS).card : Rat) / ((sectionKeys expS).card : Rat) :=
  (section_detection_matches_spec predS expS).2 (by simp [expS])

/-- Rows with an empty `metrics` list contribute nothing to a column's values. -/
theorem filterMap_alookup_filter (rows : List ResultRow) (c : String) :
    rows.filterMap (fun r => alookup c r.metrics) =
      (rows.filter (fun r => !r.metrics.isEmpty)).filterMap (fun r => alookup c r.metrics) := by
  induction rows with
  | nil => rfl
  | cons r rest ih =>
      by_cases hm : r.metrics.isEmpty
      · have hnone : alookup c r.metrics = none := by
          cases hml : r.metrics with
          | nil => rfl
          | cons p ps => rw [hml] at hm; simp at hm
        simp [List.filterMap_cons, List.filter_cons, hm, hnone, ih]
      · simp [List.filterMap_cons, List.filter_cons, hm, ih]

/-- When every row is an error row, every column mean is missing. -/
theorem columnMean_all_error (rows : List ResultRow)
    (h : ∀ r ∈ rows, r.metrics = []) (c : String) :
    columnMean rows c = none := by
  unfold columnMean
  dsimp only
  have hnil : rows.filterMap (fun r => alookup c r.metrics) = [] := by
    induction rows with
    | nil => rfl
    | cons r rest ih =>
        have hr : r.metrics = [] := h r (List.mem_cons_self r rest)
        simp [List.filterMap_cons, hr, alookup,
          ih (fun x hx => h x (List.mem_cons_of_mem r hx))]
  simp [hnil]

/-- C7: a metric column's mean is computed only over the rows that populate
it — rows carrying only `eval_id` and `error` contribute nothing, and are
never treated as zeros — and when every row is an error row no metric column
exists, every check is skipped, and the verdict is pass. -/
theorem gate_ignores_error_rows (rows : List ResultRow) :
    (∀ c, columnMean rows c =
        columnMean (rows.filter (fun r => !r.metrics.isEmpty)) c)
    ∧ ((∀ r ∈ rows, r.metrics = []) → check_pass_fail rows = true) := by
  constructor
  · intro c
    unfold columnMean
    dsimp only
    rw [filterMap_alookup_filter]
  · intro h
    have hm : ∀ c, columnMean rows c = none := columnMean_all_error rows h
    unfold check_pass_fail thresholdChecks THRESHOLDS
    simp [metricCheck, hm]

/-- An error row, as appended by lines 124-127 of the source. -/
def errorRowW : ResultRow := { eval_id := "e1", error := some "boom", metrics := [] }

/-- C7 witness: a table holding a single error row has no metric columns and
the gate passes. -/
theorem gate_ignores_error_rows_witness :
    columnMean [errorRowW] "clarity_mae" =
      columnMean (List.filter (fun r => !r.metrics.isEmpty) [errorRowW]) "clarity_mae"
    ∧ check_pass_fail [errorRowW] = true :=
  ⟨(gate_ignores_error_rows [errorRowW]).1 "clarity_mae",
   (gate_ignores_error_rows [errorRowW]).2 (by simp [errorRowW])⟩

/-- Under well-formed `id` fields the runner returns exactly one row per
case, in input order, each produced by `processCase`. -/
theorem run_evals_ok_of_ids (score : String → Except String ScoringResult) :
    ∀ cases : List RawCase, (∀ c ∈ cases, c.id.isSome = true) →
      run_evals score cases =
        Except.ok (cases.map (fun c => processCase score (c.id.getD "") c)) := by
  intro cases
  induction cases with
  | nil => intro _; rfl
  | cons c rest ih =>
      intro h
      obtain ⟨a, ha⟩ := Option.isSome_iff_exists.mp (h c (List.mem_cons_self c rest))
      have hrest := ih (fun x hx => h x (List.mem_cons_of_mem c hx))
      simp [run_evals, ha, hrest]

/-- C4: when every case has an `id`, any exception raised while scoring or
computing metrics for one case yields a row holding only that case's
`eval_id` and the error message, the remaining cases are still processed,
and the runner returns one row per case in input order. -/
theorem runner_isolates_failures (score : String → Except String ScoringResult)
    (cases : List RawCase) (h : ∀ c ∈ cases, c.id.isSome = true) :
    run_evals score cases =
      Except.ok (cases.map (fun c => processCase score (c.id.getD "") c))
    ∧ (∀ eval_id c e, tryBody score c = Except.error e →
        processCase score eval_id c =
          { eval_id := eval_id, error := some e, metrics := [] }) :=
  ⟨run_evals_ok_of_ids score cases h,
   fun eval_id c e he => by simp [processCase, he]⟩

/-- A scoring collaborator that succeeds on the document `good` and raises on
everything else. -/
def scoreW : String → Except String ScoringResult :=
  fun doc => if doc = "good" then Except.ok predW else Except.error "boom"

/-- Two eval cases: the first one's scoring call raises, the second succeeds. -/
def casesW : List RawCase :=
  [{ id := some "e1", document := some "bad", expected_output := some expW },
   { id := some "e2", document := some "good", expected_output := some expW }]

/-- C4 witness: the failing first case is demoted to an error row and the
second case still produces its metrics row, in input order. -/
theorem runner_isolates_failures_witness :
    run_evals scoreW casesW =
      Except.ok
        [{ eval_id := "e1", error := some "boom", metrics := [] },
         { eval_id := "e2", error := none,
           metrics := flattenMetrics (calculate_eval_metrics predW expW) }] := by
  have h := (runner_isolates_failures scoreW casesW (by simp [casesW])).1
  rw [h]
  simp [casesW, processCase, tryBody, scoreW]

/-- Two eval cases whose first entry is missing the required `id` field. -/
def badCases : List RawCase :=
  [{ id := none, document := some "good", expected_output := some expW },
   { id := some "e2", document := some "good", expected_output := some expW }]

/-- C8 counterexample: a dataset entry missing the `id` field is NOT demoted
to an error row — the access `eval_case["id"]` happens outside the `try`
block, so the whole run aborts and the remaining case is never processed. -/
theorem missing_id_aborts_run :
    run_evals scoreW badCases = Except.error "KeyError: id"
    ∧ ∀ rows, run_evals scoreW badCases ≠ Except.ok rows := by
  have h1 : run_evals scoreW badCases = Except.error "KeyError: id" := rfl
  exact ⟨h1, fun rows hrows => by rw [h1] at hrows; exact Except.noConfusion hrows⟩

/-- C8 (amended): when every entry has an `id`, the runner returns one row
per case in input order; an entry missing `document`, or missing
`expected_output` after a successful scoring call, is demoted to an error
row naming the missing key, the same demotion policy as collaborator
failures; an entry missing `id` instead raises out of the runner and aborts
the run. -/
theorem missing_field_demotion (score : String → Except String ScoringResult)
    (cases : List RawCase) (h : ∀ c ∈ cases, c.id.isSome = true) :
    run_evals score cases =
      Except.ok (cases.map (fun c => processCase score (c.id.getD "") c))
    ∧ (∀ eval_id c, c.document = none →
        processCase score eval_id c =
          { eval_id := eval_id, error := some "KeyError: document", metrics := [] })
    ∧ (∀ eval_id c doc r, c.document = some doc → score doc = Except.ok r →
        c.expected_output = none →
        processCase score eval_id c =
          { eval_id := eval_id, error := some "KeyError: expected_output", metrics := [] })
    ∧ (∀ d e rest,
        run_evals score ({ id := none, document := d, expected_output := e } :: rest) =
          Except.error "KeyError: id") :=
  ⟨run_evals_ok_of_ids score cases h,
   fun eval_id c hdoc => by simp [processCase, tryBody, hdoc],
   fun eval_id c doc r hdoc hscore hexp => by simp [processCase, tryBody, hdoc, hscore, hexp],
   fun d e rest => rfl⟩

/-- A dataset with a single entry missing its `document` field. -/
def docMissingCases : List RawCase :=
  [{ id := some "e1", document := none, expected_output := some expW }]

/-- C8 witness: the entry missing `document` is demoted to an error row and
the run still returns a row list. -/
theorem missing_field_demotion_witness :
    processCase scoreW "e1" { id := some "e1", document := none, expected_output := some expW } =
      { eval_id := "e1", error := some "KeyError: document", metrics := [] }
    ∧ run_evals scoreW docMissingCases =
        Except.ok (docMissingCases.map (fun c => processCase scoreW (c.id.getD "") c)) :=
  ⟨(missing_field_demotion scoreW docMissingCases (by simp [docMissingCases])).2.1 "e1" _ rfl,
   (missing_field_demotion scoreW docMissingCases (by simp [docMissingCases])).1⟩

/-- C10 counterexample: `survey.doc` has lowercase suffix `.doc`, which is
neither `.docx` nor `.pdf`, yet the legacy variant does not fall back to the
PDF media type for it — its `media_types` table maps `.doc` to the MS Word
media type. -/
theorem legacy_doc_not_pdf_fallback :
    pyLower (pathSuffix "survey.doc") = ".doc"
    ∧ ".doc" ≠ ".docx"
    ∧ ".doc" ≠ ".pdf"
    ∧ legacy_media_type "survey.doc" = "application/msword"
    ∧ "application/msword" ≠ "application/pdf" := by
  refine ⟨by decide, by decide, by decide, by decide, by decide⟩

/-- C10 (amended): `score_document` in `questionnaire_scorer.py` raises the
`ValueError` naming the suffix exactly when the lowercase suffix is neither
`.docx` nor `.pdf`, in the dispatch that precedes the external scoring call;
the legacy variant in `questionnaire_scrorer.py` never raises — a suffix
outside its media-type table silently falls back to the PDF media type
(while `.doc`, also unsupported by the current variant, maps to the MS Word
media type). -/
theorem score_document_suffix_dispatch (p : String) :
    ((pyLower (pathSuffix p) ≠ ".docx" ∧ pyLower (pathSuffix p) ≠ ".pdf") ↔
      score_document_format p =
        Except.error
          ("Unsupported file format: " ++ pyLower (pathSuffix p) ++ ". Use .docx or .pdf"))
    ∧ (alookup (pyLower (pathSuffix p)) media_types = none →
        legacy_media_type p = "application/pdf") := by
  constructor
  · constructor
    · intro h
      unfold score_document_format
      rw [if_neg h.1, if_neg h.2]
    · intro h
      unfold score_document_format at h
      constructor
      · intro hdocx
        rw [if_pos hdocx] at h
        exact Except.noConfusion h
      · intro hpdf
        by_cases hdocx : pyLower (pathSuffix p) = ".docx"
        · rw [if_pos hdocx] at h
          exact Except.noConfusion h
        · rw [if_neg hdocx, if_pos hpdf] at h
          exact Except.noConfusion h
  · intro h
    unfold legacy_media_type
    rw [h]
    rfl

/-- C10 witness: at the concrete path `a.txt` the dispatch raises the
`ValueError` naming `.txt`, and the legacy variant falls back to the PDF
media type. -/
theorem score_document_suffix_dispatch_witness :
    score_document_format "a.txt" =
      Except.error
        ("Unsupported file format: " ++ pyLower (pathSuffix "a.txt") ++ ". Use .docx or .pdf")
    ∧ legacy_media_type "a.txt" = "application/pdf" :=
  ⟨(score_document_suffix_dispatch "a.txt").1.mp (by decide),
   (score_document_suffix_dispatch "a.txt").2 (by decide)⟩

/-- Folding `appendScores` over records (the per-section accumulation). -/
def accScores (sc : SectionScores) (rs : List CsvRow) : SectionScores :=
  rs.foldl appendScores sc

/-- Lookup through a value-mapped association list. -/
theorem alookup_map_value {α β : Type} (g : α → β) (m : List (String × α)) (s : String) :
    alookup s (m.map (fun p => (p.1, g p.2))) = (alookup s m).map g := by
  induction m with
  | nil => rfl
  | cons p rest ih => by_cases hp : p.1 = s <;> simp [alookup, hp, ih]

/-- Lookup falls through an append when the key is absent from the front. -/
theorem alookup_append_none {α : Type} (m l : List (String × α)) (s : String)
    (h : alookup s m = none) : alookup s (m ++ l) = alookup s l := by
  induction m with
  | nil => rfl
  | cons p rest ih =>
      by_cases hp : p.1 = s
      · rw [alookup, if_pos hp] at h
        exact Option.noConfusion h
      · rw [alookup, if_neg hp] at h
        simpa [alookup, hp] using ih h

/-- Lookup stops in the front of an append when the key is present there. -/
theorem alookup_append_some {α : Type} (m l : List (String × α)) (s : String) (v : α)
    (h : alookup s m = some v) : alookup s (m ++ l) = some v := by
  induction m with
  | nil => exact Option.noConfusion h
  | cons p rest ih =>
      by_cases hp : p.1 = s
      · rw [alookup, if_pos hp] at h
        simpa [alookup, hp] using h
      · rw [alookup, if_neg hp] at h
        simpa [alookup, hp] using ih h

/-- Lookup through an in-place value update. -/
theorem alookup_updateAssoc {α : Type} (m : List (String × α)) (key : String) (f : α → α)
    (s : String) :
    alookup s (updateAssoc m key f) =
      if s = key then (alookup s m).map f else alookup s m := by
  induction m with
  | nil => by_cases h : s = key <;> simp [updateAssoc, alookup, h]
  | cons p rest ih =>
      by_cases hpk : p.1 = key
      · by_cases hps : p.1 = s
        · have hsk : s = key := hps ▸ hpk
          simp [updateAssoc, alookup, hpk, hps, hsk]
        · simp only [updateAssoc, List.map_cons, if_pos hpk] at *
          rw [alookup, if_neg hps, alookup, if_neg hps]
          exact ih
      · by_cases hps : p.1 = s
        · have hsk : ¬s = key := fun h => hpk (hps.trans h)
          simp [updateAssoc, alookup, hpk, hps, hsk]
        · simp only [updateAssoc, List.map_cons, if_neg hpk] at *
          rw [alookup, if_neg hps, alookup, if_neg hps]
          exact ih

/-- Per-attribute content of the accumulated score lists. -/
theorem accScores_get (rs : List CsvRow) :
    ∀ (sc : SectionScores) (a : Attr),
      (accScores sc rs).get a = sc.get a ++ rs.map (rowAttr a) := by
  induction rs with
  | nil =>
      intro sc a
      simp [accScores]
  | cons r rest ih =>
      intro sc a
      have hfold : accScores sc (r :: rest) = accScores (appendScores sc r) rest := rfl
      rw [hfold, ih (appendScores sc r) a]
      cases a <;> simp [appendScores, AttrMap.get, rowAttr]

/-- The empty score lists are empty at each attribute. -/
theorem emptyScores_get (a : Attr) : emptyScores.get a = [] := by
  cases a <;> rfl

/-- Section averages are `meanScores` of the accumulated lists, pointwise. -/
theorem averagesOf_get (sc : SectionScores) (a : Attr) :
    (averagesOf sc).get a = meanScores (sc.get a) := by
  cases a <;> rfl

/-- `addRow` leaves other sections' entries unchanged. -/
theorem alookup_addRow_ne (m : List (String × SectionScores)) (r : CsvRow) (s : String)
    (hrs : r.sectionName ≠ s) : alookup s (addRow m r) = alookup s m := by
  unfold addRow
  cases hm2 : alookup r.sectionName m with
  | none =>
      cases hms : alookup s m with
      | none =>
          rw [alookup_append_none m _ s hms]
          simp [alookup, fun h : r.sectionName = s => hrs h]
      | some v => rw [alookup_append_some m _ s v hms]
  | some sc2 =>
      rw [alookup_updateAssoc, if_neg (fun h : s = r.sectionName => hrs h.symm)]

/-- A record whose section is new creates that section's entry. -/
theorem alookup_addRow_eq_none (m : List (String × SectionScores)) (r : CsvRow) (s : String)
    (hrs : r.sectionName = s) (hm : alookup s m = none) :
    alookup s (addRow m r) = some (appendScores emptyScores r) := by
  unfold addRow
  rw [hrs, hm]
  rw [alookup_append_none m _ s hm]
  simp [alookup]

/-- A record whose section exists appends to that section's entry. -/
theorem alookup_addRow_eq_some (m : List (String × SectionScores)) (r : CsvRow) (s : String)
    (hrs : r.sectionName = s) (sc : SectionScores) (hm : alookup s m = some sc) :
    alookup s (addRow m r) = some (appendScores sc r) := by
  unfold addRow
  rw [hrs, hm]
  rw [alookup_updateAssoc, if_pos rfl, hm]
  rfl

/-- Folding the reader loop over records, when the section is already present
in the accumulator. -/
theorem alookup_foldl_addRow_some (rows : List CsvRow) :
    ∀ (m : List (String × SectionScores)) (s : String) (sc : SectionScores),
      alookup s m = some sc →
      alookup s (rows.foldl addRow m) =
        some (accScores sc (rows.filter (fun r => decide (r.sectionName = s)))) := by
  induction rows with
  | nil =>
      intro m s sc hm
      simpa [accScores] using hm
  | cons r rest ih =>
      intro m s sc hm
      rw [List.foldl_cons]
      by_cases hrs : r.sectionName = s
      · rw [ih (addRow m r) s (appendScores sc r) (alookup_addRow_eq_some m r s hrs sc hm)]
        simp [List.filter_cons, hrs, accScores]
      · rw [ih (addRow m r) s sc (by rw [alookup_addRow_ne m r s hrs]; exact hm)]
        simp [List.filter_cons, hrs]

/-- Folding the reader loop over records, when the section is absent from the
accumulator: the entry exists afterwards exactly when some record carries the
section, and then holds the accumulated scores of exactly those records. -/
theorem alookup_foldl_addRow_none (rows : List CsvRow) :
    ∀ (m : List (String × SectionScores)) (s : String),
      alookup s m = none →
      alookup s (rows.foldl addRow m) =
        if (rows.filter (fun r => decide (r.sectionName = s))).isEmpty then none
        else some (accScores emptyScores (rows.filter (fun r => decide (r.sectionName = s)))) := by
  induction rows with
  | nil =>
      intro m s hm
      simpa using hm
  | cons r rest ih =>
      intro m s hm
      rw [List.foldl_cons]
      by_cases hrs : r.sectionName = s
      · rw [alookup_foldl_addRow_some rest (addRow m r) s (appendScores emptyScores r)
            (alookup_addRow_eq_none m r s hrs hm)]
        simp [List.filter_cons, hrs, accScores]
      · rw [ih (addRow m r) s (by rw [alookup_addRow_ne m r s hrs]; exact hm)]
        simp [List.filter_cons, hrs]

/-- A row filter's emptiness detects section membership among the records. -/
theorem filter_isEmpty_iff_mem (rows : List CsvRow) (s : String) :
    ((rows.filter (fun r => decide (r.sectionName = s))).isEmpty = false) ↔
      s ∈ rows.map CsvRow.sectionName := by
  constructor
  · intro h
    cases hfl : rows.filter (fun r => decide (r.sectionName = s)) with
    | nil => rw [hfl] at h; simp at h
    | cons x xs =>
        have hx : x ∈ rows.filter (fun r => decide (r.sectionName = s)) := by
          rw [hfl]
          exact List.mem_cons_self x xs
        have hx2 := List.mem_filter.mp hx
        exact List.mem_map.mpr ⟨x, hx2.1, by simpa using hx2.2⟩
  · intro h
    obtain ⟨r, hr, hrs⟩ := List.mem_map.mp h
    cases hfl : rows.filter (fun r => decide (r.sectionName = s)) with
    | nil =>
        have hmem : r ∈ rows.filter (fun r => decide (r.sectionName = s)) :=
          List.mem_filter.mpr ⟨hr, by simpa using hrs⟩
        rw [hfl] at hmem
        exact absurd hmem (List.not_mem_nil r)
    | cons x xs => rfl

/-- Transporting the per-section attribute lists from records to parsed
questions. -/
theorem filter_questions_map (rows : List CsvRow) (s : String) (a : Attr) :
    ((rows.map rowToQuestion).filter (fun q => decide (q.sectionName = s))).map (qAttr a) =
      (rows.filter (fun r => decide (r.sectionName = s))).map (rowAttr a) := by
  rw [List.filter_map, List.map_map]
  have hpred : ((fun q : Question => decide (q.sectionName = s)) ∘ rowToQuestion) =
      (fun r : CsvRow => decide (r.sectionName = s)) := rfl
  have hcomp : (qAttr a ∘ rowToQuestion) = rowAttr a := by
    funext r
    cases a <;> rfl
  rw [hpred, hcomp]

/-- Transporting the per-section question count from records to parsed
questions. -/
theorem filter_questions_length (rows : List CsvRow) (s : String) :
    ((rows.map rowToQuestion).filter (fun q => decide (q.sectionName = s))).length =
      (rows.filter (fun r => decide (r.sectionName = s))).length := by
  rw [List.filter_map, List.length_map]
  rfl

/-- C9: for every parsed CSV output, the keys of `section_averages` are
exactly the section names appearing in `questions`, and each stored average
equals the arithmetic mean of that attribute over the questions of that
section. -/
theorem section_averages_invariant (rows : List CsvRow) :
    (∀ s, (alookup s (parse_csv_output rows).section_averages).isSome = true ↔
        s ∈ (parse_csv_output rows).questions.map Question.sectionName)
    ∧ (∀ (s : String) (avg : AttrMap Rat),
        alookup s (parse_csv_output rows).section_averages = some avg →
        ∀ a : Attr,
          avg.get a =
            ((((parse_csv_output rows).questions.filter
                (fun q => decide (q.sectionName = s))).map (qAttr a)).sum : Rat) /
              (((parse_csv_output rows).questions.filter
                (fun q => decide (q.sectionName = s))).length : Rat)) := by
  have hsa : ∀ s, alookup s (parse_csv_output rows).section_averages =
      (alookup s (sectionScoresOf rows)).map averagesOf := fun s =>
    alookup_map_value averagesOf (sectionScoresOf rows) s
  have hfold : ∀ s, alookup s (sectionScoresOf rows) =
      if (rows.filter (fun r => decide (r.sectionName = s))).isEmpty then none
      else some (accScores emptyScores (rows.filter (fun r => decide (r.sectionName = s)))) :=
    fun s => alookup_foldl_addRow_none rows [] s rfl
  have hqmap : (parse_csv_output rows).questions.map Question.sectionName =
      rows.map CsvRow.sectionName := by
    show (rows.map rowToQuestion).map Question.sectionName = rows.map CsvRow.sectionName
    rw [List.map_map]
    rfl
  constructor
  · intro s
    rw [hsa s, hfold s, hqmap]
    by_cases hf : (rows.filter (fun r => decide (r.sectionName = s))).isEmpty = true
    · rw [if_pos hf]
      constructor
      · intro h
        simp at h
      · intro hmem
        rw [(filter_isEmpty_iff_mem rows s).mpr hmem] at hf
        exact Bool.noConfusion hf
    · rw [if_neg hf]
      constructor
      · intro _
        exact (filter_isEmpty_iff_mem rows s).mp (Bool.not_eq_true _ ▸ hf)
      · intro _
        rfl
  · intro s avg havg a
    rw [hsa s, hfold s] at havg
    by_cases hf : (rows.filter (fun r => decide (r.sectionName = s))).isEmpty = true
    · rw [if_pos hf] at havg
      simp at havg
    · rw [if_neg hf] at havg
      have havg2 : avg =
          averagesOf (accScores emptyScores
            (rows.filter (fun r => decide (r.sectionName = s)))) :=
        (Option.some.inj havg).symm
      rw [havg2, averagesOf_get, accScores_get, emptyScores_get, List.nil_append]
      unfold meanScores
      show _ =
        ((((rows.map rowToQuestion).filter (fun q => decide (q.sectionName = s))).map
            (qAttr a)).sum : Rat) /
          ((((rows.map rowToQuestion).filter
            (fun q => decide (q.sectionName = s))).length : Nat) : Rat)
      rw [filter_questions_map rows s a, filter_questions_length rows s, List.length_map]

/-- A CSV record in section `A` with clarity 4. -/
def csvA1 : CsvRow :=
  { sectionName := "A", question_number := 1, question_text := "x",
    clarity := 4, specificity := 4, bias := 4, actionability := 4 }

/-- A CSV record in section `B`. -/
def csvB1 : CsvRow :=
  { sectionName := "B", question_number := 1, question_text := "y",
    clarity := 2, specificity := 2, bias := 2, actionability := 2 }

/-- A second CSV record in section `A` with clarity 5. -/
def csvA2 : CsvRow :=
  { sectionName := "A", question_number := 2, question_text := "z",
    clarity := 5, specificity := 3, bias := 1, actionability := 1 }

/-- Three CSV records across two sections. -/
def csvRowsW : List CsvRow := [csvA1, csvB1, csvA2]

/-- C9 witness: on the three-record fixture, section `A` appears among the
parsed questions and its stored clarity average equals the mean of the
clarity scores of the section's questions. -/
theorem section_averages_invariant_witness :
    "A" ∈ (parse_csv_output csvRowsW).questions.map Question.sectionName
    ∧ (averagesOf (appendScores (appendScores emptyScores csvA1) csvA2)).get Attr.clarity =
        ((((parse_csv_output csvRowsW).questions.filter
            (fun q => decide (q.sectionName = "A"))).map (qAttr Attr.clarity)).sum : Rat) /
          (((parse_csv_output csvRowsW).questions.filter
            (fun q => decide (q.sectionName = "A"))).length : Rat) :=
  ⟨((section_averages_invariant csvRowsW).1 "A").mp (by rfl),
   (section_averages_invariant csvRowsW).2 "A" _ (by rfl) Attr.clarity⟩

end SurveyEval
